import Mathlib

/-!
Shallow embedding of the urlfetcher core (package `urldata`, file
`urldata.go`): the job registry, the response cache, the work queue and the
fetch-or-cache-hit procedure `doJob`, together with theorems settling the
behavioural claims about them.

Modelling conventions:
* Go `time.Time` / `time.Duration` are nanosecond counts (`Int`); the
  freshness test `time.Now().Sub(response.Timestamp).Hours() < 1.0` becomes
  `now - timestamp < hourNs` with `hourNs = 3600 * 10^9`.
* The nil-able pointer fields (`Job.Response`, map lookups) become `Option`.
* `Job.Status` keeps the literal status strings the Go code writes:
  "waiting", "fetching", "done", "done - cached", "error - error with GET",
  "error - error reading body".  `specStatus` is the correspondence between
  those strings and the specification's abstract five-value enum.
* The package-level mutable globals (`jobs`, `responses`, `jobQueue`,
  `curJobID`) form a `State` record threaded explicitly; a run-time panic
  (the nil `*Job` dereference on a dequeued id with no registered job) is a
  `none` result, since a Go panic in a worker goroutine kills the process.
* Network effects are an oracle `net : String → FetchResult` giving, per
  URL, the outcome of the `http.Get` + `ioutil.ReadAll` pair; `doJob` also
  records the list of status writes and of attempted GETs so that status
  histories and retry behaviour are observable.
-/

namespace Urlfetcher

/-- Time instants and durations, in Go nanoseconds. -/
abbrev Time := Int

/-- One hour in nanoseconds, the freshness bound of `doJob`. -/
def hourNs : Time := 3600 * 1000000000

/-- `Response` represents data retrieved from an URL (`struct Response`). -/
structure Response where
  url : String
  body : String
  timestamp : Time
deriving Repr, DecidableEq

/-- `Job` represents an individual job request (`struct Job`); the Go field
`Response *Response` is the `result` Option here, and `status` is the
literal Go status string. -/
structure Job where
  id : Int
  url : String
  status : String
  result : Option Response
deriving Repr, DecidableEq

/-- The package-level mutable state of `urldata.go`: the `jobs` registry
map, the `responses` cache map, the pending contents of the buffered
channel `jobQueue` (FIFO, head = next to be dequeued), and the id counter
`curJobID`. -/
structure State where
  jobs : Int → Option Job
  responses : String → Option Response
  queue : List Int
  curJobID : Int

/-- The state of a freshly started process: empty maps, empty queue,
`curJobID = 0`. -/
def initState : State :=
  { jobs := fun _ => none
    responses := fun _ => none
    queue := []
    curJobID := 0 }

/-- `jobs[jobID] = &job`: insert or replace a registry entry. -/
def setJob (s : State) (jobID : Int) (j : Job) : State :=
  { s with jobs := fun i => if i = jobID then some j else s.jobs i }

/-- `responses[url] = response`: insert or replace a cache entry. -/
def setResponse (s : State) (url : String) (r : Response) : State :=
  { s with responses := fun u => if u = url then some r else s.responses u }

/-- `AddJob` (urldata.go): `atomic.AddInt64(&curJobID, 1)` allocates the next
id, a Job in status "waiting" with nil result is registered under that id,
the id is pushed onto `jobQueue`, and the Job value is returned. -/
def AddJob (s : State) (url : String) : Job × State :=
  let jobID := s.curJobID + 1
  let job : Job := { id := jobID, url := url, status := "waiting", result := none }
  (job, { setJob s jobID job with curJobID := jobID, queue := s.queue ++ [jobID] })

/-- `GetJob` (urldata.go): registry lookup; Go returns nil for a missing id. -/
def GetJob (s : State) (id : Int) : Option Job := s.jobs id

/-- `GetResponse` (urldata.go): cache lookup; Go returns nil for a missing URL. -/
def GetResponse (s : State) (url : String) : Option Response := s.responses url

/-- Outcome of the network for one `http.Get` + `ioutil.ReadAll` pair on a
URL: `getError` is `http.Get` returning a non-nil error; `readError` is a
successful connection whose body read fails, carrying whatever bytes
`ReadAll` had already read when it failed (Go `ReadAll` returns the partial
data alongside the error, and `doJob` goes on to use it); `ok` carries the
fully read body. -/
inductive FetchResult where
  | getError : FetchResult
  | readError : String → FetchResult
  | ok : String → FetchResult
deriving Repr, DecidableEq

/-- Observable outcome of one `doJob` call: `result` is the package state
afterwards (`none` models the Go run-time panic from dereferencing a nil
`*Job`, which kills the whole process); `statusWrites` is the sequence of
values assigned to `job.Status`, in order; `gets` is the list of URLs
passed to `http.Get`, in order. -/
structure DoJobTrace where
  result : Option State
  statusWrites : List String
  gets : List String

/-- The fetch branch of `doJob` (cache miss, or hit older than an hour):
`job.Status = "fetching"`, then `http.Get(job.URL)`.  On a GET error the
job is set to nil result and "error - error with GET" and the procedure
returns.  On a read error the job is set to nil result and
"error - error reading body", but the Go code has no `return` there, so it
falls through: a Response built from the partial body is published into the
cache, attached to the job, and the status is overwritten with "done" —
exactly as the source reads. -/
def doFetch (net : String → FetchResult) (now : Time) (s : State)
    (jobID : Int) (job : Job) : DoJobTrace :=
  let s1 := setJob s jobID { job with status := "fetching" }
  match net job.url with
  | FetchResult.getError =>
      let s2 := setJob s1 jobID { job with result := none, status := "error - error with GET" }
      { result := some s2
        statusWrites := ["fetching", "error - error with GET"]
        gets := [job.url] }
  | FetchResult.readError partBody =>
      let s2 := setJob s1 jobID { job with result := none, status := "error - error reading body" }
      let resp : Response := { url := job.url, body := partBody, timestamp := now }
      let s3 := setResponse s2 job.url resp
      let s4 := setJob s3 jobID { job with result := some resp, status := "done" }
      { result := some s4
        statusWrites := ["fetching", "error - error reading body", "done"]
        gets := [job.url] }
  | FetchResult.ok body =>
      let resp : Response := { url := job.url, body := body, timestamp := now }
      let s2 := setResponse s1 job.url resp
      let s3 := setJob s2 jobID { job with result := some resp, status := "done" }
      { result := some s3
        statusWrites := ["fetching", "done"]
        gets := [job.url] }

/-- Continuation of `doJob` once the job was found in the registry: check
the cache; on a hit fresher than one hour attach the cached Response and
finish as "done - cached" with no network access, otherwise fetch. -/
def doJobFound (net : String → FetchResult) (now : Time) (s : State)
    (jobID : Int) (job : Job) : DoJobTrace :=
  match s.responses job.url with
  | some response =>
      if now - response.timestamp < hourNs then
        { result := some (setJob s jobID { job with result := some response, status := "done - cached" })
          statusWrites := ["done - cached"]
          gets := [] }
      else
        doFetch net now s jobID job
  | none => doFetch net now s jobID job

/-- `doJob` (urldata.go): look up the dequeued id in `jobs`; when the id has
no entry the Go code receives nil and the immediately following `job.URL`
dereference panics — `result := none`, no status write, no GET.  Otherwise
proceed with the cache check / fetch. -/
def doJob (net : String → FetchResult) (now : Time) (s : State) (jobID : Int) : DoJobTrace :=
  match s.jobs jobID with
  | none => { result := none, statusWrites := [], gets := [] }
  | some job => doJobFound net now s jobID job

/-- One `fetchWorker` draining a finite list of dequeued ids in order; a
panicking `doJob` kills the process, abandoning the remaining ids
(`none`). -/
def runJobs (net : String → FetchResult) (now : Time) (s : State) : List Int → Option State
  | [] => some s
  | id :: rest =>
      match (doJob net now s id).result with
      | none => none
      | some s1 => runJobs net now s1 rest

/-- Sequential submissions: one `AddJob` per URL, in order, returning the
Job values handed back to the callers and the final state. -/
def addJobs (s : State) : List String → List Job × State
  | [] => ([], s)
  | u :: rest =>
      let p := AddJob s u
      let q := addJobs p.2 rest
      (p.1 :: q.1, q.2)

/-- The correspondence between the status strings `urldata.go` writes and
the specification's abstract five-value enum (`waiting`, `fetching`,
`done`, `done-cached`, `error`); `none` for a string outside the code's
vocabulary. -/
def specStatus : String → Option String
  | "waiting" => some "waiting"
  | "fetching" => some "fetching"
  | "done" => some "done"
  | "done - cached" => some "done-cached"
  | "error - error with GET" => some "error"
  | "error - error reading body" => some "error"
  | _ => none

/-- The cache-hit-and-fresh test of `doJob`:
`ok && time.Now().Sub(response.Timestamp).Hours() < 1.0`. -/
def freshHit (cached : Option Response) (now : Time) : Bool :=
  match cached with
  | some r => decide (now - r.timestamp < hourNs)
  | none => false

/-- One sequential step of the system: a submission, or one worker running
`doJob` to completion for some id under some network behaviour and clock (a
panicking `doJob` has no successor state). -/
inductive Step : State → State → Prop where
  | add (s : State) (url : String) : Step s (AddJob s url).2
  | work (s : State) (net : String → FetchResult) (now : Time) (id : Int) (s1 : State)
      (h : (doJob net now s id).result = some s1) : Step s s1

/-- States reachable from the fresh-process state by submissions and worker
steps. -/
inductive Reachable : State → Prop where
  | init : Reachable initState
  | step {s s1 : State} : Reachable s → Step s s1 → Reachable s1

/-- Every cache entry is stored under the key equal to its own `url`
field. -/
def cacheKeyed (s : State) : Prop :=
  ∀ u r, s.responses u = some r → r.url = u

/-- Network behaviour where every connection succeeds with body "X". -/
def okNet : String → FetchResult := fun _ => FetchResult.ok "X"

/-- Network behaviour where every body read fails after a successful
connection, with partial bytes "par". -/
def readFailNet : String → FetchResult := fun _ => FetchResult.readError "par"

/-- Network behaviour where every `http.Get` fails. -/
def getFailNet : String → FetchResult := fun _ => FetchResult.getError

/-- State of a fresh process after submitting "http://a" (job id 1). -/
def oneJobState : State := (AddJob initState "http://a").2

/-- `oneJobState` with a cached Response for "http://a" captured at time 0. -/
def cachedState : State :=
  setResponse oneJobState "http://a" { url := "http://a", body := "old", timestamp := 0 }

/-- The Job value `AddJob` hands back for the first submission of a fresh
process. -/
def jobA : Job := { id := 1, url := "http://a", status := "waiting", result := none }

/-- The Job value `AddJob` hands back for the third submission of a fresh
process. -/
def jobC : Job := { id := 3, url := "http://c", status := "waiting", result := none }

/-- Three sequential submissions used as concrete witnesses. -/
def urls3 : List String := ["http://a", "http://b", "http://c"]

/-- State reached from a fresh process by submitting "http://a" and letting a
worker process job 1 under `okNet` at time 0. -/
def wState : State := ((doJob okNet 0 oneJobState 1).result).getD initState

/-! ## Reduction lemmas for `doJob` -/

/-- When the dequeued id is registered, `doJob` proceeds with the found job. -/
theorem doJob_found (net : String → FetchResult) (now : Time) (s : State) (jobID : Int)
    (job : Job) (h : s.jobs jobID = some job) :
    doJob net now s jobID = doJobFound net now s jobID job := by
  unfold doJob
  rw [h]

/-- On a cache hit fresher than one hour the job finishes from cache. -/
theorem doJobFound_fresh (net : String → FetchResult) (now : Time) (s : State) (jobID : Int)
    (job : Job) (r : Response) (h : s.responses job.url = some r)
    (hf : now - r.timestamp < hourNs) :
    doJobFound net now s jobID job =
      { result := some (setJob s jobID { job with result := some r, status := "done - cached" })
        statusWrites := ["done - cached"]
        gets := [] } := by
  unfold doJobFound
  rw [h]
  simp only [if_pos hf]

/-- On a cache miss or a stale hit the job goes to the fetch branch. -/
theorem doJobFound_notFresh (net : String → FetchResult) (now : Time) (s : State) (jobID : Int)
    (job : Job) (h : freshHit (s.responses job.url) now = false) :
    doJobFound net now s jobID job = doFetch net now s jobID job := by
  unfold doJobFound
  cases hres : s.responses job.url with
  | none => rfl
  | some r =>
    rw [hres] at h
    simp only [freshHit, decide_eq_false_iff_not] at h
    simp only [if_neg h]

/-- Fetch branch outcome when `http.Get` fails. -/
theorem doFetch_getError (net : String → FetchResult) (now : Time) (s : State) (jobID : Int)
    (job : Job) (h : net job.url = FetchResult.getError) :
    doFetch net now s jobID job =
      { result := some (setJob (setJob s jobID { job with status := "fetching" }) jobID
          { job with result := none, status := "error - error with GET" })
        statusWrites := ["fetching", "error - error with GET"]
        gets := [job.url] } := by
  unfold doFetch
  rw [h]

/-- Fetch branch outcome when the body read fails: the error assignments are
immediately overwritten by the fall-through success path. -/
theorem doFetch_readError (net : String → FetchResult) (now : Time) (s : State) (jobID : Int)
    (job : Job) (partBody : String) (h : net job.url = FetchResult.readError partBody) :
    doFetch net now s jobID job =
      { result := some (setJob
          (setResponse (setJob (setJob s jobID { job with status := "fetching" }) jobID
              { job with result := none, status := "error - error reading body" }) job.url
            { url := job.url, body := partBody, timestamp := now }) jobID
          { job with status := "done", result := some { url := job.url, body := partBody, timestamp := now } })
        statusWrites := ["fetching", "error - error reading body", "done"]
        gets := [job.url] } := by
  unfold doFetch
  rw [h]

/-- Fetch branch outcome on a fully successful GET and body read. -/
theorem doFetch_ok (net : String → FetchResult) (now : Time) (s : State) (jobID : Int)
    (job : Job) (body : String) (h : net job.url = FetchResult.ok body) :
    doFetch net now s jobID job =
      { result := some (setJob
          (setResponse (setJob s jobID { job with status := "fetching" }) job.url
            { url := job.url, body := body, timestamp := now }) jobID
          { job with status := "done", result := some { url := job.url, body := body, timestamp := now } })
        statusWrites := ["fetching", "done"]
        gets := [job.url] } := by
  unfold doFetch
  rw [h]

/-! ## Claim theorems -/

/-- C1: contrary to the claim, a job whose body read fails does not stay in
an error status with an empty result: because the read-error branch of
`doJob` lacks a `return`, the job ends with status "done" and a Response
attached.  Evaluated at job 1 of a fresh process with a read-failing
network. -/
theorem c1_read_failure_ends_done :
    ((doJob readFailNet 0 oneJobState 1).result.bind (fun s => GetJob s 1)).map
        (fun j => (j.status, j.result.isSome)) = some ("done", true) := rfl

/-- C2: contrary to the claim, a body-read failure does not leave the cache
unchanged: before the job runs `GetResponse` misses, and afterwards the
cache holds a Response built from the partial body. -/
theorem c2_read_failure_writes_cache :
    GetResponse oneJobState "http://a" = none ∧
    (doJob readFailNet 0 oneJobState 1).result.map (fun s => GetResponse s "http://a")
      = some (some { url := "http://a", body := "par", timestamp := 0 }) := ⟨rfl, rfl⟩

/-- C3: contrary to the claim, dequeuing an id with no registered job does
not signal a recoverable internal error: `doJob` dereferences a nil `*Job`
and panics (result `none`), and the worker loop dies without processing the
remaining queue (here id 1 after the bogus id 7). -/
theorem c3_missing_job_panics :
    (doJob okNet 0 initState 7).result = none ∧
    runJobs okNet 0 initState [7, 1] = none := ⟨rfl, rfl⟩

/-- C6: contrary to the claim, a job's status history need not be a prefix
of the three specified paths: under a body-read failure the history is
waiting, fetching, error, done — an error status is written and then
overwritten by done, so the error state is not terminal. -/
theorem c6_status_history_violated :
    "waiting" :: (doJob readFailNet 0 oneJobState 1).statusWrites
      = ["waiting", "fetching", "error - error reading body", "done"] ∧
    ("waiting" :: (doJob readFailNet 0 oneJobState 1).statusWrites).map specStatus
      = [some "waiting", some "fetching", some "error", some "done"] := ⟨rfl, rfl⟩

/-- C4: a cache hit fresher than one hour finishes the job as
"done - cached" with exactly the cached Response attached and no network
access; a hit at least one hour old goes to the fetch branch and, on a
successful fetch, installs a brand-new Response stamped with the current
time (strictly later than the cached timestamp). -/
theorem c4_cache_freshness (net : String → FetchResult) (now : Time) (s : State)
    (jobID : Int) (job : Job) (r : Response)
    (hjob : GetJob s jobID = some job) (hr : GetResponse s job.url = some r) :
    (now - r.timestamp < hourNs →
      doJob net now s jobID =
        { result := some (setJob s jobID { job with result := some r, status := "done - cached" })
          statusWrites := ["done - cached"]
          gets := [] }) ∧
    (hourNs ≤ now - r.timestamp → ∀ body, net job.url = FetchResult.ok body →
      ∃ s1, (doJob net now s jobID).result = some s1 ∧
        GetJob s1 jobID = some { job with status := "done", result := some { url := job.url, body := body, timestamp := now } } ∧
        (doJob net now s jobID).gets = [job.url] ∧
        r.timestamp < now) := by
  constructor
  · intro hf
    rw [doJob_found net now s jobID job hjob, doJobFound_fresh net now s jobID job r hr hf]
  · intro hstale body hnet
    have hmiss : freshHit (s.responses job.url) now = false := by
      have hr2 : s.responses job.url = some r := hr
      rw [hr2]
      simp only [freshHit, decide_eq_false_iff_not]
      exact not_lt.mpr hstale
    have hd : doJob net now s jobID = doFetch net now s jobID job := by
      rw [doJob_found net now s jobID job hjob, doJobFound_notFresh net now s jobID job hmiss]
    rw [hd, doFetch_ok net now s jobID job body hnet]
    refine ⟨_, rfl, ?_, rfl, ?_⟩
    · simp [GetJob, setJob, setResponse]
    · have h0 : (0 : Int) < hourNs := by norm_num [hourNs]
      have h1 : (0 : Int) < now - r.timestamp := lt_of_lt_of_le h0 hstale
      exact sub_pos.mp h1

/-- C4 witness: with a Response for "http://a" captured at time 0, job 1 is
served from cache at 59 minutes, and at 61 minutes a fresh GET is issued. -/
theorem c4_cache_freshness_witness :
    (doJob okNet (59 * 60 * 1000000000) cachedState 1).statusWrites = ["done - cached"] ∧
    (doJob okNet (61 * 60 * 1000000000) cachedState 1).gets = ["http://a"] := by
  constructor
  · have h := (c4_cache_freshness okNet (59 * 60 * 1000000000) cachedState 1 jobA
      { url := "http://a", body := "old", timestamp := 0 } rfl rfl).1 (by decide)
    rw [h]
  · obtain ⟨s1, h1, h2, hg, h4⟩ := (c4_cache_freshness okNet (61 * 60 * 1000000000) cachedState 1 jobA
      { url := "http://a", body := "old", timestamp := 0 } rfl rfl).2 (by decide) "X" rfl
    exact hg

/-- C5: when `http.Get` fails for a dequeued registered job that is not
served from cache, the job ends with the GET-error status (the spec's
`error`) and an empty result, exactly one GET was attempted (no retry),
`doJob` returns normally rather than panicking, and the worker loop simply
proceeds with the rest of the queue. -/
theorem c5_transport_failure (net : String → FetchResult) (now : Time) (s : State)
    (jobID : Int) (job : Job)
    (hjob : GetJob s jobID = some job)
    (hmiss : freshHit (GetResponse s job.url) now = false)
    (hnet : net job.url = FetchResult.getError) :
    ∃ s1, (doJob net now s jobID).result = some s1 ∧
      GetJob s1 jobID = some { job with result := none, status := "error - error with GET" } ∧
      specStatus "error - error with GET" = some "error" ∧
      (doJob net now s jobID).gets = [job.url] ∧
      ∀ rest, runJobs net now s (jobID :: rest) = runJobs net now s1 rest := by
  have hd : doJob net now s jobID =
      { result := some (setJob (setJob s jobID { job with status := "fetching" }) jobID
          { job with result := none, status := "error - error with GET" })
        statusWrites := ["fetching", "error - error with GET"]
        gets := [job.url] } := by
    rw [doJob_found net now s jobID job hjob, doJobFound_notFresh net now s jobID job hmiss,
        doFetch_getError net now s jobID job hnet]
  refine ⟨setJob (setJob s jobID { job with status := "fetching" }) jobID
      { job with result := none, status := "error - error with GET" }, ?_, ?_, rfl, ?_, ?_⟩
  · rw [hd]
  · simp [GetJob, setJob]
  · rw [hd]
  · intro rest
    simp only [runJobs, hd]

/-- C5 witness: a fresh process, one submitted job, and a network whose GET
always fails. -/
theorem c5_transport_failure_witness :
    ∃ s1, (doJob getFailNet 0 oneJobState 1).result = some s1 ∧
      GetJob s1 1 = some { jobA with result := none, status := "error - error with GET" } ∧
      specStatus "error - error with GET" = some "error" ∧
      (doJob getFailNet 0 oneJobState 1).gets = [jobA.url] ∧
      ∀ rest, runJobs getFailNet 0 oneJobState (1 :: rest) = runJobs getFailNet 0 s1 rest :=
  c5_transport_failure getFailNet 0 oneJobState 1 jobA rfl rfl rfl

/-- C7: after a fully successful fetch of a registered job's URL, the cache
holds a new Response with that URL, the fetched body and the current
timestamp (replacing any prior entry, all other URLs untouched), and the
job ends "done" with that Response attached. -/
theorem c7_success_populates_cache (net : String → FetchResult) (now : Time) (s : State)
    (jobID : Int) (job : Job) (body : String)
    (hjob : GetJob s jobID = some job)
    (hmiss : freshHit (GetResponse s job.url) now = false)
    (hnet : net job.url = FetchResult.ok body) :
    ∃ s1, (doJob net now s jobID).result = some s1 ∧
      GetResponse s1 job.url = some { url := job.url, body := body, timestamp := now } ∧
      (∀ u, u ≠ job.url → GetResponse s1 u = GetResponse s u) ∧
      GetJob s1 jobID = some { job with status := "done", result := some { url := job.url, body := body, timestamp := now } } := by
  have hd : doJob net now s jobID = doFetch net now s jobID job := by
    rw [doJob_found net now s jobID job hjob, doJobFound_notFresh net now s jobID job hmiss]
  rw [hd, doFetch_ok net now s jobID job body hnet]
  refine ⟨_, rfl, ?_, ?_, ?_⟩
  · simp [GetResponse, setJob, setResponse]
  · intro u hu
    simp [GetResponse, setJob, setResponse, hu]
  · simp [GetJob, setJob, setResponse]

/-- C7 witness: a fresh process, one submitted job for "http://a", and a
network that returns body "X". -/
theorem c7_success_populates_cache_witness :
    ∃ s1, (doJob okNet 0 oneJobState 1).result = some s1 ∧
      GetResponse s1 jobA.url = some { url := jobA.url, body := "X", timestamp := 0 } ∧
      (∀ u, u ≠ jobA.url → GetResponse s1 u = GetResponse oneJobState u) ∧
      GetJob s1 1 = some { jobA with status := "done", result := some { url := jobA.url, body := "X", timestamp := 0 } } :=
  c7_success_populates_cache okNet 0 oneJobState 1 jobA "X" rfl rfl rfl

/-- The k-th Job handed back by a run of sequential submissions has id
`curJobID + 1 + k`, status "waiting" and an empty result. -/
theorem addJobs_nth (s : State) (urls : List String) (k : Nat) (j : Job)
    (h : (addJobs s urls).1[k]? = some j) :
    j.id = s.curJobID + 1 + k ∧ j.status = "waiting" ∧ j.result = none := by
  induction urls generalizing s k with
  | nil => simp [addJobs] at h
  | cons u rest ih =>
    cases k with
    | zero =>
      simp only [addJobs, List.getElem?_cons_zero, Option.some.injEq] at h
      subst h
      refine ⟨?_, rfl, rfl⟩
      simp [AddJob]
    | succ k =>
      simp only [addJobs, List.getElem?_cons_succ] at h
      have hrec := ih (AddJob s u).2 k h
      have hcur : (AddJob s u).2.curJobID = s.curJobID + 1 := rfl
      rw [hcur] at hrec
      refine ⟨?_, hrec.2.1, hrec.2.2⟩
      rw [hrec.1]
      push_cast
      ring

/-- C8: across sequential `AddJob` calls from any state, a later call's id is
strictly greater than an earlier call's (hence ids are globally unique), and
every returned Job is in status "waiting" with an empty result at the moment
the call returns. -/
theorem c8_submit_ids (s : State) (urls : List String) (i j : Nat) (hij : i < j)
    (ji jj : Job)
    (hi : (addJobs s urls).1[i]? = some ji) (hj : (addJobs s urls).1[j]? = some jj) :
    ji.id < jj.id ∧ ji.status = "waiting" ∧ ji.result = none := by
  obtain ⟨hi1, hi2, hi3⟩ := addJobs_nth s urls i ji hi
  obtain ⟨hj1, hj2, hj3⟩ := addJobs_nth s urls j jj hj
  refine ⟨?_, hi2, hi3⟩
  rw [hi1, hj1]
  omega

/-- C8 witness: the first and third of three submissions to a fresh
process. -/
theorem c8_submit_ids_witness :
    jobA.id < jobC.id ∧ jobA.status = "waiting" ∧ jobA.result = none :=
  c8_submit_ids initState urls3 0 2 (by decide) jobA jobC rfl rfl

/-- C9: starting from a fresh process, the k-th sequential `AddJob` call
(k counted from 0) returns id k + 1: the first id is 1 and ids are
consecutive. -/
theorem c9_ids_consecutive (urls : List String) (k : Nat) (j : Job)
    (h : (addJobs initState urls).1[k]? = some j) :
    j.id = k + 1 := by
  have h1 := (addJobs_nth initState urls k j h).1
  rw [h1]
  have h0 : initState.curJobID = 0 := rfl
  rw [h0]
  omega

/-- C9 witness: the third of three submissions to a fresh process has
id 3. -/
theorem c9_ids_consecutive_witness : jobC.id = ((2 : Nat) : Int) + 1 :=
  c9_ids_consecutive urls3 2 jobC rfl

/-- `setJob` never touches the response cache. -/
theorem setJob_responses (s : State) (i : Int) (j : Job) :
    (setJob s i j).responses = s.responses := rfl

/-- The fetch branch preserves the cache-self-keying invariant: the only
cache writes store a Response whose url field equals the key. -/
theorem doFetch_cacheKeyed (net : String → FetchResult) (now : Time) (s : State)
    (jobID : Int) (job : Job) (s1 : State)
    (h : (doFetch net now s jobID job).result = some s1) (hk : cacheKeyed s) :
    cacheKeyed s1 := by
  cases hnet : net job.url with
  | getError =>
    rw [doFetch_getError net now s jobID job hnet] at h
    have hs1 := Option.some.inj h
    subst hs1
    intro u r hr
    exact hk u r hr
  | readError partBody =>
    rw [doFetch_readError net now s jobID job partBody hnet] at h
    have hs1 := Option.some.inj h
    subst hs1
    intro u r hr
    simp only [GetResponse, setJob, setResponse] at hr
    by_cases hu : u = job.url
    · subst hu
      rw [if_pos rfl] at hr
      have := Option.some.inj hr
      rw [← this]
    · rw [if_neg hu] at hr
      exact hk u r hr
  | ok body =>
    rw [doFetch_ok net now s jobID job body hnet] at h
    have hs1 := Option.some.inj h
    subst hs1
    intro u r hr
    simp only [GetResponse, setJob, setResponse] at hr
    by_cases hu : u = job.url
    · subst hu
      rw [if_pos rfl] at hr
      have := Option.some.inj hr
      rw [← this]
    · rw [if_neg hu] at hr
      exact hk u r hr

/-- A single system step (submission or completed worker run) preserves the
cache-self-keying invariant. -/
theorem step_cacheKeyed {s s1 : State} (hstep : Step s s1) (hk : cacheKeyed s) :
    cacheKeyed s1 := by
  cases hstep with
  | add url =>
    intro u r hr
    exact hk u r hr
  | work net now id s1 hres =>
    cases hjob : s.jobs id with
    | none =>
      simp only [doJob, hjob] at hres
      exact Option.noConfusion hres
    | some job =>
      rw [doJob_found net now s id job hjob] at hres
      cases hcache : s.responses job.url with
      | some r0 =>
        by_cases hf : now - r0.timestamp < hourNs
        · rw [doJobFound_fresh net now s id job r0 hcache hf] at hres
          have hs1 := Option.some.inj hres
          subst hs1
          intro u r hr
          exact hk u r hr
        · have hmiss : freshHit (s.responses job.url) now = false := by
            rw [hcache]
            simp only [freshHit, decide_eq_false_iff_not]
            exact hf
          rw [doJobFound_notFresh net now s id job hmiss] at hres
          exact doFetch_cacheKeyed net now s id job s1 hres hk
      | none =>
        have hmiss : freshHit (s.responses job.url) now = false := by
          rw [hcache]
          rfl
        rw [doJobFound_notFresh net now s id job hmiss] at hres
        exact doFetch_cacheKeyed net now s id job s1 hres hk

/-- Every reachable state satisfies the cache-self-keying invariant. -/
theorem reachable_cacheKeyed {s : State} (hs : Reachable s) : cacheKeyed s := by
  induction hs with
  | init =>
    intro v rr hrr
    exact Option.noConfusion hrr
  | step hre hstep ih => exact step_cacheKeyed hstep ih

/-- C10: in every state reachable from a fresh process by submissions and
worker steps, a cache lookup that returns a Response returns one whose url
field equals the queried URL. -/
theorem c10_cache_self_keyed {s : State} (hs : Reachable s) (u : String) (r : Response)
    (h : GetResponse s u = some r) : r.url = u :=
  reachable_cacheKeyed hs u r h

/-- C10 witness: the state after submitting "http://a" and one successful
worker run caches a Response for "http://a" whose url field is
"http://a". -/
theorem c10_cache_self_keyed_witness :
    ({ url := "http://a", body := "X", timestamp := 0 } : Response).url = "http://a" :=
  c10_cache_self_keyed
    (Reachable.step (Reachable.step Reachable.init (Step.add initState "http://a"))
      (Step.work oneJobState okNet 0 1 wState rfl))
    "http://a" { url := "http://a", body := "X", timestamp := 0 } rfl

end Urlfetcher
